import Mathlib

/-!
Shallow embedding of `annotationExplorer.py` (class `AnnotationExplorer`).

The file models the pieces of the program the claims are about:

* the three format sniffers `_is_pascal_voc`, `_is_yolo`, `_is_coco`
  (section 4.1 of the spec), including the exact exception classes each
  one catches;
* the classification walk `organize_files_and_identify_format`
  (section 4.2), including the move destinations and the mutable
  counters `num_images` / `num_annotations` and field `identified_format`;
* `_create_folder_structure` (workspace naming) and `cleanup`
  (scratch-area deletion), over a filesystem modelled as the list of
  existing paths.

External library calls are modelled at their result level: a file record
carries the outcome of `xml.etree.ElementTree.parse`, of
`open(...).readlines()`, and of `open(...)` + `json.load`, since only one
of the three is ever consulted for a given file (the extension gate in
the walk is mutually exclusive).  Python string operations (`lower`,
`endswith`, `split`, `isdigit`, `replace('.', '', 1)`) are translated for
ASCII text, which is the alphabet the spec's extension and token checks
live in.
-/

/-- The Python exception classes that can escape the code under study.
`typeError` models `TypeError` (membership test on a non-container),
`unicodeError` models `UnicodeDecodeError` (reading a non-text file in
text mode), `moveCollision` models `shutil.Error` (moving a file into a
directory that already holds that base name), `osError` models `OSError`
from `os.rmdir` on a non-empty directory. -/
inductive PyError where
  | typeError
  | unicodeError
  | moveCollision
  | osError
deriving DecidableEq

/-- A parsed JSON document as far as the code inspects it: `json.load`
returns a dict (only its keys matter to `_is_coco`), a list, a string, a
number, a boolean, or `None`. -/
inductive JsonValue where
  | obj (keys : List String)
  | arr (elems : List JsonValue)
  | str (s : String)
  | num (n : Int)
  | bool (b : Bool)
  | null

/-- Outcome of `open(file_path, 'r')` followed by `json.load(file)`:
the read can fail with `UnicodeDecodeError` (`readError`), the decode
can fail with `json.JSONDecodeError` (`decodeError`), or a value is
produced. -/
inductive JsonReadResult where
  | readError
  | decodeError
  | ok (v : JsonValue)

/-- An element of the tree returned by `xml.etree.ElementTree.parse`:
a tag and the list of direct child elements (all the code looks at). -/
inductive XmlElem where
  | node (tag : String) (children : List XmlElem)

def XmlElem.tag : XmlElem → String
  | .node t _ => t

def XmlElem.children : XmlElem → List XmlElem
  | .node _ cs => cs

/-- `root.find(t)`: first direct child element whose tag is `t`. -/
def XmlElem.findChild (x : XmlElem) (t : String) : Option XmlElem :=
  x.children.find? (fun c => c.tag == t)

/-- One file discovered by `os.walk(self.extract_dir)`: `dir` is the
directory it sits in (the walk's `root`), `name` its bare file name, and
the three remaining fields are the outcomes the external parsers would
produce on its content (at most one of them is ever consulted, chosen by
the extension gate). `xml = none` models `ET.ParseError`; `text = none`
models any exception from `open`/`readlines`. -/
structure SFile where
  dir : String
  name : String
  xml : Option XmlElem
  text : Option (List String)
  json : JsonReadResult

/-- Python `str.lower` on ASCII text, applied character-wise. -/
def pyLower (s : String) : String :=
  ⟨s.data.map Char.toLower⟩

/-- Python `str.endswith(t)`: `t` is a suffix of `s`. -/
def strEndsWith (s t : String) : Bool :=
  decide (t.data <:+ s.data)

/-- Python `part.replace('.', '', 1)` on the character list: drop the
first `'.'` if any. -/
def dropFirstDot : List Char → List Char
  | [] => []
  | c :: cs => if c = '.' then cs else c :: dropFirstDot cs

/-- Python `str.isdigit` restricted to ASCII: nonempty and all digits. -/
def pyIsdigit (l : List Char) : Bool :=
  !l.isEmpty && l.all Char.isDigit

/-- The whitespace characters Python `str.split()` (no argument) splits
on. -/
def isPySpace (c : Char) : Bool :=
  c = ' ' || c = '\t' || c = '\n' || c = '\r' || c = '\x0b' || c = '\x0c'

/-- Accumulator loop behind `pySplit`: collects maximal runs of
non-whitespace characters. -/
def splitWsAux : List Char → List Char → List String
  | [], acc => if acc.isEmpty then [] else [⟨acc.reverse⟩]
  | c :: cs, acc =>
    if isPySpace c then
      if acc.isEmpty then splitWsAux cs []
      else (⟨acc.reverse⟩ : String) :: splitWsAux cs []
    else splitWsAux cs (c :: acc)

/-- Python `str.split()` with no argument: split on whitespace runs and
drop empty pieces.  The code's `line.strip().split()` is the same
function, since `split()` already ignores leading and trailing
whitespace. -/
def pySplit (s : String) : List String :=
  splitWsAux s.data []

/-- `_is_pascal_voc`: parse the file as XML (`none` = `ET.ParseError`,
caught, negative match); succeed iff the root tag is `'annotation'` and
`root.find('object')` is not `None`. -/
def is_pascal_voc (f : SFile) : Bool :=
  match f.xml with
  | none => false
  | some root => root.tag == "annotation" && (root.findChild "object").isSome

/-- The per-token test of `_is_yolo`:
`part.replace('.', '', 1).isdigit()`. -/
def yoloToken (t : String) : Bool :=
  pyIsdigit (dropFirstDot t.data)

/-- The per-line test of `_is_yolo`: `len(parts) == 5 and all(...)`. -/
def yoloLine (line : String) : Bool :=
  (pySplit line).length == 5 && (pySplit line).all yoloToken

/-- `_is_yolo`: read the lines (`none` = any exception, all caught by
`except Exception`, negative match); succeed iff some line passes the
five-numeric-token test. -/
def is_yolo (f : SFile) : Bool :=
  match f.text with
  | none => false
  | some lines => lines.any yoloLine

/-- Equality test Python's `in` performs between a string key and a list
element: only equal strings match. -/
def jsonStrEq (key : String) : JsonValue → Bool
  | .str s => key == s
  | _ => false

/-- Python `key in data` for a parsed JSON value: key membership for a
dict, element membership for a list, substring for a string, and
`TypeError` for a number, boolean or `None`. -/
def jsonMember (key : String) : JsonValue → Except PyError Bool
  | .obj keys => .ok (keys.contains key)
  | .arr elems => .ok (elems.any (jsonStrEq key))
  | .str s => .ok (decide (key.data <:+: s.data))
  | .num _ => .error .typeError
  | .bool _ => .error .typeError
  | .null => .error .typeError

/-- `_is_coco`: `open` in text mode then `json.load`.  Only
`json.JSONDecodeError` is caught (negative match); a
`UnicodeDecodeError` from the read and a `TypeError` from the membership
tests both escape.  The three membership tests short-circuit like the
Python `and`. -/
def is_coco (f : SFile) : Except PyError Bool :=
  match f.json with
  | .readError => .error .unicodeError
  | .decodeError => .ok false
  | .ok data =>
    match jsonMember "annotations" data with
    | .error e => .error e
    | .ok false => .ok false
    | .ok true =>
      match jsonMember "images" data with
      | .error e => .error e
      | .ok false => .ok false
      | .ok true => jsonMember "categories" data

/-- Where the walk routes a file: the images directory, one of the three
format subfolders under `annotations/`, or nowhere. -/
inductive Route where
  | image
  | xmlBucket
  | yoloBucket
  | cocoBucket
  | unmoved
deriving DecidableEq

/-- The image pre-filter of the walk:
`file.lower().endswith(('.png', '.jpg', '.jpeg'))`. -/
def imageExt (name : String) : Bool :=
  strEndsWith (pyLower name) ".png" || strEndsWith (pyLower name) ".jpg" ||
    strEndsWith (pyLower name) ".jpeg"

/-- The per-file dispatch of `organize_files_and_identify_format`: the
image extension check first (case-insensitive), then the case-sensitive
`.xml` / `.txt` / `.json` gates, each invoking its sniffer; any other
extension is ignored.  Only `_is_coco` can raise. -/
def classifyFile (f : SFile) : Except PyError Route :=
  if imageExt f.name then .ok .image
  else if strEndsWith f.name ".xml" then
    .ok (if is_pascal_voc f then .xmlBucket else .unmoved)
  else if strEndsWith f.name ".txt" then
    .ok (if is_yolo f then .yoloBucket else .unmoved)
  else if strEndsWith f.name ".json" then
    match is_coco f with
    | .ok true => .ok .cocoBucket
    | .ok false => .ok .unmoved
    | .error e => .error e
  else .ok .unmoved

/-- `os.path.join` for the relative paths the program builds. -/
def pathJoin (a b : String) : String :=
  a ++ "/" ++ b

/-- The walk's `file_path = os.path.join(root, file)`. -/
def srcPath (f : SFile) : String :=
  pathJoin f.dir f.name

/-- Destination path of a routed file, under the workspace `base`:
images go to `train_images/<name>` (explicit destination path), matched
files of each format go into the corresponding `annotations/<fmt>`
folder, keeping their base name. -/
def routeDest (base : String) (f : SFile) : Route → Option String
  | .image => some (pathJoin (pathJoin base "train_images") f.name)
  | .xmlBucket => some (pathJoin (pathJoin (pathJoin base "annotations") "xml") f.name)
  | .yoloBucket => some (pathJoin (pathJoin (pathJoin base "annotations") "yolo") f.name)
  | .cocoBucket => some (pathJoin (pathJoin (pathJoin base "annotations") "coco") f.name)
  | .unmoved => none

/-- The format literal the walk writes into `self.identified_format`
when a file is routed to a format bucket. -/
def routeFormat : Route → Option String
  | .xmlBucket => some "Pascal VOC"
  | .yoloBucket => some "YOLO"
  | .cocoBucket => some "COCO"
  | _ => none

/-- Whether a route is one of the three `annotations/` buckets (the
routes whose moves go through `_move_file` and bump
`num_annotations`). -/
def isAnnotRoute : Route → Bool
  | .xmlBucket => true
  | .yoloBucket => true
  | .cocoBucket => true
  | _ => false

/-- One `shutil.move` performed by the walk. -/
structure MoveEvent where
  src : String
  dest : String
deriving DecidableEq

/-- The mutable state the walk threads: `self.identified_format`,
`self.num_images`, `self.num_annotations`, plus the list of moves
performed so far (the observable filesystem effect). -/
structure WalkState where
  identified_format : Option String
  num_images : Nat
  num_annotations : Nat
  moves : List MoveEvent
deriving DecidableEq

/-- State of the explorer right after `extract_zip`, before the walk. -/
def initState : WalkState :=
  { identified_format := none, num_images := 0, num_annotations := 0, moves := [] }

/-- State update for a file routed to `r` with destination `dest`:
counters bump, the format literal (if any) overwrites
`identified_format`, and the move is recorded. -/
def applyMove (st : WalkState) (f : SFile) (r : Route) (dest : String) : WalkState :=
  { identified_format :=
      match routeFormat r with
      | some s => some s
      | none => st.identified_format,
    num_images := st.num_images + (if r = Route.image then 1 else 0),
    num_annotations := st.num_annotations + (if isAnnotRoute r then 1 else 0),
    moves := st.moves ++ [⟨srcPath f, dest⟩] }

/-- The loop body of `organize_files_and_identify_format` for one file.
A sniffer exception escapes; `_move_file` / `shutil.move` into an
annotation folder raises `shutil.Error` when the destination name is
already taken there, while the image move (explicit destination path)
silently replaces an existing file. -/
def stepFile (base : String) (st : WalkState) (f : SFile) : Except PyError WalkState :=
  match classifyFile f with
  | .error e => .error e
  | .ok r =>
    match routeDest base f r with
    | none => .ok st
    | some dest =>
      if isAnnotRoute r && st.moves.any (fun e => e.dest == dest) then
        .error PyError.moveCollision
      else
        .ok (applyMove st f r dest)

/-- The full walk of `organize_files_and_identify_format` over the files
`os.walk` yields, in order; the first escaping exception aborts it. -/
def walk (base : String) : WalkState → List SFile → Except PyError WalkState
  | st, [] => .ok st
  | st, f :: fs =>
    match stepFile base st f with
    | .error e => .error e
    | .ok st' => walk base st' fs

/-- A filesystem as the list of paths that currently exist (files and
directories alike); enough for the naming and deletion claims. -/
abbrev Fs := List String

/-- `os.path.exists`. -/
def fsExists (fs : Fs) (p : String) : Bool :=
  fs.contains p

/-- `os.makedirs(p, exist_ok=True)`: create the path if absent, succeed
silently if it is already there. -/
def makedirsExistOk (fs : Fs) (p : String) : Fs :=
  if fs.contains p then fs else p :: fs

/-- `open(p, 'w')` + `json.dump`: create the file if absent, truncate
and rewrite it if present (the path set is unchanged in that case). -/
def writeFileTrunc (fs : Fs) (p : String) : Fs :=
  if fs.contains p then fs else p :: fs

/-- `os.path.basename`: everything after the last `'/'`. -/
def basenameAux (acc : List Char) : List Char → List Char
  | [] => acc.reverse
  | c :: cs => if c = '/' then basenameAux [] cs else basenameAux (c :: acc) cs

def pyBasename (p : String) : String :=
  ⟨basenameAux [] p.data⟩

/-- `_create_folder_structure`: the chosen base directory name is the
fixed string `converted_<basename of zip_path>` — the existing
filesystem is never consulted for the choice — and the skeleton plus the
two seed JSON files are created with `exist_ok`/truncating semantics.
Returns the base directory name and the updated filesystem. -/
def create_folder_structure (fs : Fs) (zip_path : String) : String × Fs :=
  let dataset_name := pyBasename zip_path
  let base_dir := "converted_" ++ dataset_name
  let fs1 := makedirsExistOk fs base_dir
  let fs2 := makedirsExistOk fs1 (pathJoin base_dir "train_images")
  let fs3 := makedirsExistOk fs2 (pathJoin base_dir "validation_images")
  let fs4 := makedirsExistOk fs3 (pathJoin base_dir "cocos")
  let fs5 := writeFileTrunc fs4 (pathJoin (pathJoin base_dir "cocos") "val_coco.json")
  let fs6 := writeFileTrunc fs5 (pathJoin (pathJoin base_dir "cocos") "test_coco.json")
  (base_dir, fs6)

/-- The scratch directory `self.extract_dir`. -/
def scratchDir : String := "extracted_files"

/-- A path strictly below `root` (some `root/...` descendant). -/
def strictlyUnder (root p : String) : Bool :=
  decide ((root ++ "/").data <+: p.data)

/-- `root` itself or any path strictly below it. -/
def isUnder (root p : String) : Bool :=
  p == root || strictlyUnder root p

/-- The `os.walk(self.extract_dir, topdown=False)` loop of `cleanup`:
bottom-up, every file is `os.remove`d and every directory `rmtree`d, so
every path strictly under the scratch root is deleted; walking an absent
directory yields nothing. -/
def walkRemoveAll (root : String) (fs : Fs) : Fs :=
  fs.filter (fun p => !(strictlyUnder root p))

/-- `os.rmdir(d)`: fails on a non-empty directory, otherwise removes the
entry. -/
def rmdirFs (d : String) (fs : Fs) : Except PyError Fs :=
  if fs.any (fun p => strictlyUnder d p) then .error .osError
  else .ok (fs.filter (fun p => p != d))

/-- `cleanup`: delete everything under the scratch directory, then —
only if the scratch directory still exists — `os.rmdir` it.  This is the
last step of `explore_and_organize`. -/
def cleanup (fs : Fs) : Except PyError Fs :=
  let fs1 := walkRemoveAll scratchDir fs
  if fsExists fs1 scratchDir then rmdirFs scratchDir fs1 else .ok fs1

/-- The move a single file gives rise to (if any), as a pure function of
the file: used to describe the walk's move log. -/
def fileEvent (b : String) (f : SFile) : Option MoveEvent :=
  match classifyFile f with
  | .ok r =>
    match routeDest b f r with
    | some d => some ⟨srcPath f, d⟩
    | none => none
  | .error _ => none

/-- The format literal a single file contributes (if any). -/
def fileFormat (f : SFile) : Option String :=
  match classifyFile f with
  | .ok r => routeFormat r
  | .error _ => none

/-- Whether a file is routed to one of the three `annotations/`
buckets. -/
def annotMatch (f : SFile) : Bool :=
  match classifyFile f with
  | .ok r => isAnnotRoute r
  | .error _ => false

/-- Whether a file is routed anywhere at all. -/
def isRouted (f : SFile) : Bool :=
  match classifyFile f with
  | .ok Route.unmoved => false
  | .ok _ => true
  | .error _ => false

/-- The claim's token notion for the line-based sniffer: a non-negative
decimal numeral — only digits and at most one decimal point, with at
least one digit. -/
def specNumericToken (t : String) : Prop :=
  t.data.count '.' ≤ 1 ∧ (∀ c ∈ t.data, c.isDigit = true ∨ c = '.') ∧
    ∃ c ∈ t.data, c.isDigit = true

instance (t : String) : Decidable (specNumericToken t) :=
  inferInstanceAs (Decidable (_ ∧ _ ∧ _))

/-- A Pascal-VOC-matching XML file (`<annotation><object/></annotation>`). -/
def demoXmlFile : SFile :=
  ⟨"extracted_files", "a.xml", some (.node "annotation" [.node "object" []]), none,
    .decodeError⟩

/-- A YOLO-matching text file (one line of five numeric tokens). -/
def demoYoloFile : SFile :=
  ⟨"extracted_files", "b.txt", none, some ["0 0.5 0.5 0.2 0.1"], .decodeError⟩

/-- A text file with one qualifying line among malformed ones. -/
def demoMixedYolo : SFile :=
  ⟨"extracted_files", "c.txt", none, some ["not numbers here", "0 0.5 0.5 0.25 0.25", "1 2"],
    .decodeError⟩

/-- A well-formed XML file whose root tag is not the expected literal. -/
def badXmlFile : SFile :=
  ⟨"extracted_files", "meta.xml", some (.node "metadata" [.node "object" []]), none,
    .decodeError⟩

/-- An upper-case-extension file that is valid Pascal VOC content. -/
def upperAnnFile : SFile :=
  ⟨"extracted_files", "ANN.XML", some (.node "annotation" [.node "object" []]), none,
    .decodeError⟩

/-- An image-extension file (content irrelevant). -/
def demoImgFile : SFile :=
  ⟨"extracted_files", "img2.PNG", none, none, .decodeError⟩

/-- A `.json` file whose document is the bare number `5`. -/
def topLevelNumJson : SFile :=
  ⟨"extracted_files", "five.json", none, none, .ok (.num 5)⟩

/-- A `.json` file whose bytes do not decode as text. -/
def binaryJson : SFile :=
  ⟨"extracted_files", "bin.json", none, none, .readError⟩

/-- An upper-case image-extension file, per the claim's example. -/
def upperImgFile : SFile :=
  ⟨"extracted_files", "IMG.PNG", none, none, .decodeError⟩

theorem routeDest_none {b : String} {f : SFile} {r : Route} :
    routeDest b f r = none ↔ r = Route.unmoved := by
  cases r <;> simp [routeDest]

theorem classifyFile_image {f : SFile} (h : imageExt f.name = true) :
    classifyFile f = .ok .image := by
  simp [classifyFile, h]

theorem classifyFile_not_image {f : SFile} {r : Route} (h : imageExt f.name = false)
    (hc : classifyFile f = .ok r) : r ≠ .image := by
  intro hr
  subst hr
  rw [classifyFile, if_neg (by simp [h])] at hc
  split at hc
  · split at hc <;> simp_all
  · split at hc
    · split at hc <;> simp_all
    · split at hc
      · split at hc <;> simp_all
      · simp_all

theorem classify_image_iff {f : SFile} {r : Route} (hc : classifyFile f = .ok r) :
    r = Route.image ↔ imageExt f.name = true := by
  constructor
  · intro hr
    by_contra hni
    exact classifyFile_not_image (Bool.eq_false_iff.mpr hni) hc hr
  · intro h
    rw [classifyFile_image h] at hc
    exact (Except.ok.inj hc).symm

/-- Everything a successful walk guarantees, in one statement: the two
counters count exactly the image-extension files and the
annotation-matching files, the move log extends by exactly one move per
routed file (in walk order), and the recorded format is the fold of the
per-file format contributions. -/
theorem walk_ok_spec (b : String) (fs : List SFile) (st st' : WalkState)
    (h : walk b st fs = .ok st') :
    st'.num_images = st.num_images + (fs.filter (fun f => imageExt f.name)).length ∧
    st'.num_annotations = st.num_annotations + (fs.filter annotMatch).length ∧
    st'.moves = st.moves ++ fs.filterMap (fileEvent b) ∧
    st'.identified_format =
      fs.foldl (fun a f => match fileFormat f with | some s => some s | none => a)
        st.identified_format := by
  induction fs generalizing st with
  | nil =>
    rw [walk] at h
    cases h
    simp
  | cons f fs ih =>
    rw [walk] at h
    cases hs : stepFile b st f with
    | error e => rw [hs] at h; cases h
    | ok st1 =>
      rw [hs] at h
      obtain ⟨h1, h2, h3, h4⟩ := ih st1 h
      rw [stepFile] at hs
      cases hc : classifyFile f with
      | error e => rw [hc] at hs; cases hs
      | ok r =>
        rw [hc] at hs
        dsimp only at hs
        cases hd : routeDest b f r with
        | none =>
          rw [hd] at hs
          dsimp only at hs
          cases hs
          have hr : r = Route.unmoved := routeDest_none.mp hd
          subst hr
          have himg : imageExt f.name = false := by
            cases hik : imageExt f.name
            · rfl
            · have := classifyFile_image hik
              rw [hc] at this
              simp at this
          have hann : annotMatch f = false := by simp [annotMatch, hc, isAnnotRoute]
          have hev : fileEvent b f = none := by simp [fileEvent, hc, routeDest]
          have hff : fileFormat f = none := by simp [fileFormat, hc, routeFormat]
          refine ⟨?_, ?_, ?_, ?_⟩
          · simpa [List.filter_cons, himg] using h1
          · simpa [List.filter_cons, hann] using h2
          · simpa [List.filterMap_cons, hev] using h3
          · simpa [List.foldl_cons, hff] using h4
        | some dest =>
          rw [hd] at hs
          dsimp only at hs
          by_cases hcol : (isAnnotRoute r && st.moves.any (fun e => e.dest == dest)) = true
          · rw [if_pos hcol] at hs; cases hs
          · rw [if_neg hcol] at hs
            cases hs
            have himg : imageExt f.name = (decide (r = Route.image)) := by
              by_cases hri : r = Route.image
              · simp [hri, (classify_image_iff hc).mp hri]
              · rw [decide_eq_false hri]
                cases hik : imageExt f.name
                · rfl
                · exact absurd ((classify_image_iff hc).mpr hik) hri
            have hann : annotMatch f = isAnnotRoute r := by simp [annotMatch, hc]
            have hev : fileEvent b f = some ⟨srcPath f, dest⟩ := by
              simp [fileEvent, hc, hd]
            have hff : fileFormat f = routeFormat r := by simp [fileFormat, hc]
            refine ⟨?_, ?_, ?_, ?_⟩
            · rw [h1]
              by_cases hri : r = Route.image
              · have h5 : imageExt f.name = true := by rw [himg, decide_eq_true hri]
                simp [applyMove, hri, List.filter_cons, h5]
                omega
              · have h5 : imageExt f.name = false := by rw [himg, decide_eq_false hri]
                simp [applyMove, hri, List.filter_cons, h5]
            · rw [h2]
              cases hia : isAnnotRoute r
              · simp [applyMove, List.filter_cons, hann, hia]
              · simp [applyMove, List.filter_cons, hann, hia]
                omega
            · rw [h3]
              simp [applyMove, List.filterMap_cons, hev, List.append_assoc]
            · rw [h4]
              simp [applyMove, List.foldl_cons, hff]

theorem strEndsWith_excl {s a b : String} (hna : ¬ a.data <:+ b.data)
    (hnb : ¬ b.data <:+ a.data) (ha : strEndsWith s a = true) :
    strEndsWith s b = false := by
  rw [strEndsWith, decide_eq_false_iff_not]
  intro hb
  have ha' : a.data <:+ s.data := of_decide_eq_true ha
  rcases List.suffix_or_suffix_of_suffix ha' hb with h | h
  · exact hna h
  · exact hnb h

theorem strEndsWith_lower {s t : String} (h : strEndsWith s t = true) :
    strEndsWith (pyLower s) (pyLower t) = true := by
  rw [strEndsWith, decide_eq_true_eq]
  obtain ⟨u, hu⟩ := of_decide_eq_true h
  exact ⟨u.map Char.toLower, by simp [pyLower, ← hu]⟩

/-- A name whose lower-cased form ends in an extension `t` that is
suffix-incompatible with all three image extensions is not an image
name. -/
theorem lower_ann_not_image {s t : String}
    (hp : (¬ t.data <:+ ".png".data ∧ ¬ ".png".data <:+ t.data) ∧
          (¬ t.data <:+ ".jpg".data ∧ ¬ ".jpg".data <:+ t.data) ∧
          (¬ t.data <:+ ".jpeg".data ∧ ¬ ".jpeg".data <:+ t.data))
    (h : strEndsWith (pyLower s) t = true) : imageExt s = false := by
  obtain ⟨⟨p1, p2⟩, ⟨q1, q2⟩, ⟨r1, r2⟩⟩ := hp
  simp [imageExt, strEndsWith_excl p1 p2 h, strEndsWith_excl q1 q2 h,
    strEndsWith_excl r1 r2 h]

theorem foldl_format_getLast (fs : List SFile) (a : Option String) :
    fs.foldl (fun a f => match fileFormat f with | some s => some s | none => a) a =
      match (fs.filterMap fileFormat).getLast? with
      | some s => some s
      | none => a := by
  induction fs generalizing a with
  | nil => simp
  | cons f fs ih =>
    rw [List.foldl_cons, ih]
    cases hf : fileFormat f with
    | none => simp [List.filterMap_cons, hf]
    | some v =>
      simp only [List.filterMap_cons, hf]
      cases hl : fs.filterMap fileFormat with
      | nil => simp
      | cons x xs =>
        rw [List.getLast?_cons_cons]
        cases hg : (x :: xs).getLast? with
        | none => rw [List.getLast?_eq_none_iff] at hg; cases hg
        | some w => rfl

theorem dropFirstDot_subset {x : Char} : ∀ {l : List Char}, x ∈ dropFirstDot l → x ∈ l
  | [], h => by cases h
  | c :: cs, h => by
    rw [dropFirstDot] at h
    by_cases hc : c = '.'
    · rw [if_pos hc] at h
      exact List.mem_cons_of_mem _ h
    · rw [if_neg hc] at h
      rcases List.mem_cons.mp h with h | h
      · exact h ▸ List.mem_cons_self _ _
      · exact List.mem_cons_of_mem _ (dropFirstDot_subset h)

theorem mem_dropFirstDot {x : Char} (hx : x ≠ '.') :
    ∀ {l : List Char}, x ∈ l → x ∈ dropFirstDot l
  | [], h => by cases h
  | c :: cs, h => by
    rw [dropFirstDot]
    by_cases hc : c = '.'
    · rw [if_pos hc]
      rcases List.mem_cons.mp h with h | h
      · exact absurd (h.trans hc) hx
      · exact h
    · rw [if_neg hc]
      rcases List.mem_cons.mp h with h | h
      · exact h ▸ List.mem_cons_self _ _
      · exact List.mem_cons_of_mem _ (mem_dropFirstDot hx h)

theorem dropFirstDot_all_digit :
    ∀ l : List Char,
      ((dropFirstDot l).all Char.isDigit = true ↔
        l.count '.' ≤ 1 ∧ ∀ c ∈ l, c.isDigit = true ∨ c = '.')
  | [] => by simp [dropFirstDot]
  | c :: cs => by
    rw [dropFirstDot]
    by_cases hc : c = '.'
    · subst hc
      rw [if_pos rfl]
      constructor
      · intro h
        rw [List.all_eq_true] at h
        have hnd : ('.' : Char) ∉ cs := by
          intro hm
          have := h _ hm
          simp at this
        constructor
        · rw [List.count_cons_self, List.count_eq_zero.mpr hnd]
        · intro x hx
          rcases List.mem_cons.mp hx with h' | h'
          · exact Or.inr h'
          · exact Or.inl (h _ h')
      · rintro ⟨h1, h2⟩
        rw [List.count_cons_self] at h1
        have hnd : ('.' : Char) ∉ cs := by
          rw [← List.count_eq_zero]
          omega
        rw [List.all_eq_true]
        intro x hx
        rcases h2 x (List.mem_cons_of_mem _ hx) with h' | h'
        · exact h'
        · exact absurd (h' ▸ hx) hnd
    · rw [if_neg hc, List.all_cons, Bool.and_eq_true, dropFirstDot_all_digit cs,
        List.count_cons_of_ne (fun h => hc h.symm)]
      constructor
      · rintro ⟨hd, h1, h2⟩
        refine ⟨h1, ?_⟩
        intro x hx
        rcases List.mem_cons.mp hx with h' | h'
        · exact Or.inl (h' ▸ hd)
        · exact h2 x h'
      · rintro ⟨h1, h2⟩
        refine ⟨?_, h1, fun x hx => h2 x (List.mem_cons_of_mem _ hx)⟩
        rcases h2 c (List.mem_cons_self _ _) with h' | h'
        · exact h'
        · exact absurd h' hc

theorem yoloToken_iff (t : String) : yoloToken t = true ↔ specNumericToken t := by
  rw [yoloToken, pyIsdigit, Bool.and_eq_true, specNumericToken]
  constructor
  · rintro ⟨hne, hall⟩
    obtain ⟨h1, h2⟩ := (dropFirstDot_all_digit t.data).mp hall
    refine ⟨h1, h2, ?_⟩
    have : dropFirstDot t.data ≠ [] := by
      intro h
      rw [h] at hne
      simp at hne
    obtain ⟨x, hx⟩ := List.exists_mem_of_ne_nil _ this
    rw [List.all_eq_true] at hall
    exact ⟨x, dropFirstDot_subset hx, hall _ hx⟩
  · rintro ⟨h1, h2, x, hx, hd⟩
    have hxd : x ≠ '.' := by
      intro h
      rw [h] at hd
      simp at hd
    have hmem : x ∈ dropFirstDot t.data := mem_dropFirstDot hxd hx
    refine ⟨?_, (dropFirstDot_all_digit t.data).mpr ⟨h1, h2⟩⟩
    simp only [Bool.not_eq_true']
    exact List.isEmpty_eq_false_iff_exists_mem.mpr ⟨x, hmem⟩

theorem imageExt_eq_decide {f : SFile} {r : Route} (hc : classifyFile f = .ok r) :
    imageExt f.name = decide (r = Route.image) := by
  by_cases hri : r = Route.image
  · rw [decide_eq_true hri]
    exact (classify_image_iff hc).mp hri
  · rw [decide_eq_false hri]
    cases hik : imageExt f.name
    · rfl
    · exact absurd ((classify_image_iff hc).mpr hik) hri

theorem fileEvent_src_eq (b : String) (fs : List SFile) :
    (fs.filterMap (fileEvent b)).map MoveEvent.src = (fs.filter isRouted).map srcPath := by
  induction fs with
  | nil => rfl
  | cons f fs ih =>
    rw [List.filterMap_cons, List.filter_cons]
    cases hc : classifyFile f with
    | error e =>
      have h1 : fileEvent b f = none := by simp [fileEvent, hc]
      have h2 : isRouted f = false := by simp [isRouted, hc]
      simp [h1, h2, ih]
    | ok r =>
      cases hd : routeDest b f r with
      | none =>
        have hr := routeDest_none.mp hd
        have h1 : fileEvent b f = none := by simp [fileEvent, hc, hd]
        have h2 : isRouted f = false := by
          subst hr
          simp [isRouted, hc]
        simp [h1, h2, ih]
      | some dest =>
        have hr : r ≠ Route.unmoved := by
          intro hru
          rw [hru] at hd
          simp [routeDest] at hd
        have h1 : fileEvent b f = some ⟨srcPath f, dest⟩ := by simp [fileEvent, hc, hd]
        have h2 : isRouted f = true := by
          cases r <;> simp_all [isRouted, hc]
        simp [h1, h2, ih]

theorem isRouted_count (fs : List SFile) :
    (fs.filter isRouted).length =
      (fs.filter (fun f => imageExt f.name)).length + (fs.filter annotMatch).length := by
  induction fs with
  | nil => rfl
  | cons f fs ih =>
    rw [List.filter_cons, List.filter_cons, List.filter_cons]
    cases hc : classifyFile f with
    | error e =>
      have h1 : isRouted f = false := by simp [isRouted, hc]
      have h2 : annotMatch f = false := by simp [annotMatch, hc]
      have h3 : imageExt f.name = false := by
        cases hik : imageExt f.name
        · rfl
        · rw [classifyFile_image hik] at hc; cases hc
      simp [h1, h2, h3, ih]
    | ok r =>
      have h3 := imageExt_eq_decide hc
      have h1 : isRouted f = (match r with | Route.unmoved => false | _ => true) := by
        cases r <;> simp_all [isRouted, hc]
      have h2 : annotMatch f = isAnnotRoute r := by simp [annotMatch, hc]
      cases r <;> simp [h1, h2, h3, isAnnotRoute, ih] <;> omega

theorem pathJoin_left_inj {a b c : String} (h : pathJoin a c = pathJoin b c) : a = b := by
  have hd : a.data ++ ('/' :: c.data) = b.data ++ ('/' :: c.data) := by
    have h' := congrArg String.data h
    simpa [pathJoin, String.data_append] using h'
  have h2 := List.append_cancel_right hd
  cases a
  cases b
  exact congrArg String.mk h2

/-- C1 (code bug). The claim — and the class's own docstring, which
promises a `_ensure_unique_organized_dir` step — says a second run on
the same archive name gets a fresh, numerically-suffixed workspace
directory.  The code chooses `converted_<basename>` without ever
consulting the filesystem and creates it with `exist_ok=True`: running
`_create_folder_structure` again, on the very filesystem the first run
produced, returns the same base directory (so the seed JSON files are
rewritten in place and the first run's workspace is reused). -/
theorem C1_workspace_name_reused :
    (create_folder_structure (create_folder_structure [] "data.zip").2 "data.zip").1 =
      (create_folder_structure [] "data.zip").1 ∧
    (create_folder_structure [] "data.zip").1 = "converted_data.zip" :=
  ⟨rfl, rfl⟩

/-- C2 (code bug). The claim says every sniffer turns parse/content
errors into a negative match and never aborts the walk, and in
particular that the COCO check returns false for files whose content
cannot be read as text or whose top-level value does not support
membership tests.  `_is_coco` catches only `json.JSONDecodeError`: on a
`.json` file holding the bare number `5`, the membership test raises
`TypeError`, which escapes and aborts the walk; on a `.json` file whose
bytes are not text, the read raises `UnicodeDecodeError`, which also
escapes. -/
theorem C2_coco_sniffer_raises :
    is_coco topLevelNumJson = .error PyError.typeError ∧
    stepFile "converted_data.zip" initState topLevelNumJson = .error PyError.typeError ∧
    is_coco binaryJson = .error PyError.unicodeError ∧
    walk "converted_data.zip" initState [topLevelNumJson, demoImgFile] =
      .error PyError.typeError :=
  ⟨rfl, rfl, rfl, rfl⟩

/-- C3. After a successful walk started from the initial state, the
single recorded format field equals the format literal contributed by
the last file that was routed to a format bucket (none when no file
matched): last match wins, with no conflict detection. -/
theorem C3_last_match_wins (b : String) (fs : List SFile) (st' : WalkState)
    (h : walk b initState fs = .ok st') :
    st'.identified_format = (fs.filterMap fileFormat).getLast? := by
  have h4 := (walk_ok_spec b fs initState st' h).2.2.2
  rw [h4, foldl_format_getLast]
  cases hg : (fs.filterMap fileFormat).getLast? with
  | none => rfl
  | some v => rfl

/-- Witness for C3: a walk that first routes a Pascal VOC file and then
a YOLO file reports `'YOLO'`. -/
theorem C3_last_match_wins_witness :
    ∃ st', walk "converted_data.zip" initState [demoXmlFile, demoYoloFile] = .ok st' ∧
      st'.identified_format = some "YOLO" := by
  have hw : walk "converted_data.zip" initState [demoXmlFile, demoYoloFile] =
      .ok ⟨some "YOLO", 0, 2,
        [⟨"extracted_files/a.xml", "converted_data.zip/annotations/xml/a.xml"⟩,
         ⟨"extracted_files/b.txt", "converted_data.zip/annotations/yolo/b.txt"⟩]⟩ := rfl
  refine ⟨_, hw, ?_⟩
  rw [C3_last_match_wins _ _ _ hw]
  rfl

/-- C4. The Pascal VOC sniffer succeeds exactly when the file parses as
a markup tree whose root tag is the literal `annotation` with at least
one direct child tagged `object`; and an `.xml`-named file on which the
sniffer fails is left where it is — the walk state (counters, format,
move log) is unchanged. -/
theorem C4_pascal_voc_sniffer (f : SFile) (b : String) (st : WalkState)
    (h : strEndsWith f.name ".xml" = true) :
    (is_pascal_voc f = true ↔
      ∃ root, f.xml = some root ∧ root.tag = "annotation" ∧
        ∃ c ∈ root.children, c.tag = "object") ∧
    (is_pascal_voc f = false → stepFile b st f = .ok st) := by
  constructor
  · cases hx : f.xml with
    | none => simp [is_pascal_voc, hx]
    | some root =>
      simp [is_pascal_voc, hx, XmlElem.findChild, List.find?_isSome]
  · intro hv
    have himg : imageExt f.name = false := by
      have hl := strEndsWith_lower h
      rw [show pyLower ".xml" = ".xml" from by decide] at hl
      exact lower_ann_not_image (by decide) hl
    have hcf : classifyFile f = .ok Route.unmoved := by
      simp [classifyFile, himg, h, hv]
    simp [stepFile, hcf, routeDest]

/-- Witness for C4: a well-formed `.xml` file with root tag `metadata`
fails the sniffer and the walk leaves the state untouched. -/
theorem C4_pascal_voc_sniffer_witness :
    stepFile "converted_data.zip" initState badXmlFile = .ok initState :=
  (C4_pascal_voc_sniffer badXmlFile "converted_data.zip" initState (by decide)).2 rfl

/-- C5. For a readable text file, the line-based sniffer succeeds
exactly when some line splits on whitespace into exactly five tokens,
each a non-negative decimal numeral (digits with at most one decimal
point); a single qualifying line suffices whatever the other lines
contain. -/
theorem C5_yolo_sniffer (f : SFile) (l : List String) (h : f.text = some l) :
    is_yolo f = true ↔
      ∃ line ∈ l, (pySplit line).length = 5 ∧
        ∀ t ∈ pySplit line, specNumericToken t := by
  simp only [is_yolo, h, List.any_eq_true, yoloLine, Bool.and_eq_true, beq_iff_eq,
    List.all_eq_true]
  constructor
  · rintro ⟨x, hx, h5, hall⟩
    exact ⟨x, hx, h5, fun t ht => (yoloToken_iff t).mp (hall t ht)⟩
  · rintro ⟨x, hx, h5, hall⟩
    exact ⟨x, hx, h5, fun t ht => (yoloToken_iff t).mpr (hall t ht)⟩

/-- Witness for C5: one qualifying line among malformed ones makes the
sniffer succeed. -/
theorem C5_yolo_sniffer_witness : is_yolo demoMixedYolo = true :=
  (C5_yolo_sniffer demoMixedYolo
      ["not numbers here", "0 0.5 0.5 0.25 0.25", "1 2"] rfl).mpr
    ⟨"0 0.5 0.5 0.25 0.25", by decide, by decide, by decide⟩

theorem cleanup_eq (l : Fs) :
    cleanup l =
      (if fsExists (walkRemoveAll scratchDir l) scratchDir then
        rmdirFs scratchDir (walkRemoveAll scratchDir l)
      else .ok (walkRemoveAll scratchDir l)) := rfl

theorem fsExists_iff {l : Fs} {p : String} : fsExists l p = true ↔ p ∈ l := by
  simp [fsExists, List.contains, List.elem_iff]

/-- C6. After a successful walk from the initial state, the image
counter equals exactly the number of files whose (lower-cased) name ends
in an image extension, and every such file was moved to the images
destination built from its bare name — its content plays no role. -/
theorem C6_image_counter (b : String) (fs : List SFile) (st' : WalkState)
    (h : walk b initState fs = .ok st') :
    st'.num_images = (fs.filter (fun f => imageExt f.name)).length ∧
    ∀ f ∈ fs, imageExt f.name = true →
      (⟨srcPath f, pathJoin (pathJoin b "train_images") f.name⟩ : MoveEvent) ∈ st'.moves := by
  obtain ⟨h1, _, h3, _⟩ := walk_ok_spec b fs initState st' h
  have h3' : st'.moves = fs.filterMap (fileEvent b) := by simpa [initState] using h3
  constructor
  · simpa [initState] using h1
  · intro f hf hi
    rw [h3']
    exact List.mem_filterMap.mpr
      ⟨f, hf, by simp [fileEvent, classifyFile_image hi, routeDest]⟩

/-- Witness for C6: one image file (content a JSON decode error — it is
never consulted) and one non-matching XML file give image count 1 and
the expected move. -/
theorem C6_image_counter_witness :
    ∃ st', walk "converted_data.zip" initState [demoImgFile, badXmlFile] = .ok st' ∧
      st'.num_images = 1 ∧
      (⟨"extracted_files/img2.PNG", "converted_data.zip/train_images/img2.PNG"⟩ : MoveEvent)
        ∈ st'.moves := by
  have hw : walk "converted_data.zip" initState [demoImgFile, badXmlFile] =
      .ok ⟨none, 1, 0,
        [⟨"extracted_files/img2.PNG", "converted_data.zip/train_images/img2.PNG"⟩]⟩ := rfl
  obtain ⟨h1, h2⟩ := C6_image_counter _ _ _ hw
  refine ⟨_, hw, ?_, ?_⟩
  · rw [h1]; rfl
  · exact h2 demoImgFile (by simp) (by decide)

/-- C7. After a successful walk from the initial state, the move log
holds exactly one move per routed file, in walk order and keyed by the
file's source path — so no file is moved twice or to two destinations —
and the two counters sum to exactly the number of routed files, so no
file is counted twice and unrouted files are not counted at all. -/
theorem C7_route_once (b : String) (fs : List SFile) (st' : WalkState)
    (h : walk b initState fs = .ok st') :
    st'.moves.map MoveEvent.src = (fs.filter isRouted).map srcPath ∧
    st'.num_images + st'.num_annotations = (fs.filter isRouted).length := by
  obtain ⟨h1, h2, h3, _⟩ := walk_ok_spec b fs initState st' h
  have h3' : st'.moves = fs.filterMap (fileEvent b) := by simpa [initState] using h3
  constructor
  · rw [h3', fileEvent_src_eq]
  · rw [h1, h2, isRouted_count]
    simp [initState]

/-- Witness for C7: an image, an unrouted XML file and a YOLO file give
two moves (one per routed file) and counters summing to 2. -/
theorem C7_route_once_witness :
    ∃ st', walk "converted_data.zip" initState [demoImgFile, badXmlFile, demoYoloFile] =
        .ok st' ∧
      st'.moves.map MoveEvent.src = ["extracted_files/img2.PNG", "extracted_files/b.txt"] ∧
      st'.num_images + st'.num_annotations = 2 := by
  have hw : walk "converted_data.zip" initState [demoImgFile, badXmlFile, demoYoloFile] =
      .ok ⟨some "YOLO", 1, 1,
        [⟨"extracted_files/img2.PNG", "converted_data.zip/train_images/img2.PNG"⟩,
         ⟨"extracted_files/b.txt", "converted_data.zip/annotations/yolo/b.txt"⟩]⟩ := rfl
  obtain ⟨h1, h2⟩ := C7_route_once _ _ _ hw
  refine ⟨_, hw, ?_, ?_⟩
  · rw [h1]; rfl
  · rw [h2]; rfl

/-- C8. `cleanup` always succeeds; afterwards no path at or under the
scratch directory exists while every other path survives; and when
nothing at or under the scratch directory exists to begin with, it is an
exact no-op rather than a failure. -/
theorem C8_cleanup_removes_scratch (l : Fs) :
    (∃ l', cleanup l = .ok l' ∧
      (∀ p ∈ l', isUnder scratchDir p = false) ∧
      (∀ p ∈ l, isUnder scratchDir p = false → p ∈ l')) ∧
    ((∀ p ∈ l, isUnder scratchDir p = false) → cleanup l = .ok l) := by
  have hno : ∀ p ∈ walkRemoveAll scratchDir l, strictlyUnder scratchDir p = false := by
    intro p hp
    simpa using (List.mem_filter.mp hp).2
  have hmem : ∀ p ∈ walkRemoveAll scratchDir l, p ∈ l := by
    intro p hp
    exact (List.mem_filter.mp hp).1
  constructor
  · by_cases hex : fsExists (walkRemoveAll scratchDir l) scratchDir = true
    · have hcl : cleanup l =
          .ok ((walkRemoveAll scratchDir l).filter (fun p => p != scratchDir)) := by
        rw [cleanup_eq, if_pos hex, rmdirFs, if_neg ?_]
        rw [List.any_eq_true]
        rintro ⟨p, hp, hsp⟩
        rw [hno p hp] at hsp
        cases hsp
      refine ⟨_, hcl, ?_, ?_⟩
      · intro p hp
        have h2 := List.mem_filter.mp hp
        have hs := hno p h2.1
        have hne : (p == scratchDir) = false := by simpa using h2.2
        simp [isUnder, hne, hs]
      · intro p hp hu
        simp only [isUnder, Bool.or_eq_false_iff] at hu
        exact List.mem_filter.mpr
          ⟨List.mem_filter.mpr ⟨hp, by simp [hu.2]⟩, by simpa using hu.1⟩
    · have hcl : cleanup l = .ok (walkRemoveAll scratchDir l) := by
        rw [cleanup_eq, if_neg hex]
      refine ⟨_, hcl, ?_, ?_⟩
      · intro p hp
        have hs := hno p hp
        have hne : (p == scratchDir) = false := by
          cases hpe : p == scratchDir
          · rfl
          · exfalso
            apply hex
            have hpd : p = scratchDir := by simpa using hpe
            exact fsExists_iff.mpr (hpd ▸ hp)
        simp [isUnder, hne, hs]
      · intro p hp hu
        simp only [isUnder, Bool.or_eq_false_iff] at hu
        exact List.mem_filter.mpr ⟨hp, by simp [hu.2]⟩
  · intro hall
    have hfil : walkRemoveAll scratchDir l = l := by
      rw [walkRemoveAll, List.filter_eq_self]
      intro p hp
      have hu := hall p hp
      simp only [isUnder, Bool.or_eq_false_iff] at hu
      simp [hu.2]
    rw [cleanup_eq, hfil, if_neg ?_]
    rw [fsExists_iff]
    intro hmem2
    have := hall scratchDir hmem2
    simp [isUnder] at this

/-- Witness for C8: with no scratch paths present, cleanup is an exact
no-op success. -/
theorem C8_cleanup_removes_scratch_witness :
    cleanup ["converted_data.zip", "converted_data.zip/train_images"] =
      .ok ["converted_data.zip", "converted_data.zip/train_images"] :=
  (C8_cleanup_removes_scratch ["converted_data.zip", "converted_data.zip/train_images"]).2
    (by decide)

/-- C9. Annotation-extension gating is case-sensitive while image
gating is case-insensitive: a file whose name lower-cases to an
annotation extension but does not end in the exact lower-case extension
is never sniffed, moved or counted (the walk state is unchanged), while
`IMG.PNG` is still routed as an image. -/
theorem C9_case_sensitive_gating (f : SFile) (b : String) (st : WalkState)
    (hl : strEndsWith (pyLower f.name) ".xml" = true ∨
          strEndsWith (pyLower f.name) ".txt" = true ∨
          strEndsWith (pyLower f.name) ".json" = true)
    (hx : strEndsWith f.name ".xml" = false)
    (ht : strEndsWith f.name ".txt" = false)
    (hj : strEndsWith f.name ".json" = false) :
    stepFile b st f = .ok st ∧ classifyFile upperImgFile = .ok Route.image := by
  have himg : imageExt f.name = false := by
    rcases hl with h | h | h
    · exact lower_ann_not_image (by decide) h
    · exact lower_ann_not_image (by decide) h
    · exact lower_ann_not_image (by decide) h
  have hcf : classifyFile f = .ok Route.unmoved := by
    simp [classifyFile, himg, hx, ht, hj]
  exact ⟨by simp [stepFile, hcf, routeDest], rfl⟩

/-- Witness for C9: `ANN.XML`, even with perfectly valid Pascal VOC
content, leaves the walk state untouched. -/
theorem C9_case_sensitive_gating_witness :
    stepFile "converted_data.zip" initState upperAnnFile = .ok initState :=
  (C9_case_sensitive_gating upperAnnFile "converted_data.zip" initState
    (Or.inl (by decide)) (by decide) (by decide) (by decide)).1

/-- C10. Two image files with the same bare name at different depths:
the walk succeeds, both bump the image counter (reported count 2), the
two moves have distinct sources, but their destinations — built from the
bare name only — coincide, so the workspace holds one image file (one
distinct destination) against a reported count of two. -/
theorem C10_image_name_collision (b d1 d2 nm : String)
    (x1 x2 : Option XmlElem) (t1 t2 : Option (List String)) (j1 j2 : JsonReadResult)
    (hne : d1 ≠ d2) (himg : imageExt nm = true) :
    ∃ st', walk b initState [⟨d1, nm, x1, t1, j1⟩, ⟨d2, nm, x2, t2, j2⟩] = .ok st' ∧
      st'.num_images = 2 ∧
      (st'.moves.map MoveEvent.src).Nodup ∧
      st'.moves.map MoveEvent.dest =
        [pathJoin (pathJoin b "train_images") nm, pathJoin (pathJoin b "train_images") nm] ∧
      (st'.moves.map MoveEvent.dest).dedup.length = 1 := by
  have hc1 : classifyFile ⟨d1, nm, x1, t1, j1⟩ = .ok Route.image := classifyFile_image himg
  have hc2 : classifyFile ⟨d2, nm, x2, t2, j2⟩ = .ok Route.image := classifyFile_image himg
  have hw : walk b initState [⟨d1, nm, x1, t1, j1⟩, ⟨d2, nm, x2, t2, j2⟩] = .ok
      ⟨none, 2, 0,
        [⟨pathJoin d1 nm, pathJoin (pathJoin b "train_images") nm⟩,
         ⟨pathJoin d2 nm, pathJoin (pathJoin b "train_images") nm⟩]⟩ := by
    simp only [walk, stepFile, hc1, hc2, routeDest, isAnnotRoute, Bool.false_and,
      Bool.false_eq_true, if_false, applyMove, routeFormat, srcPath, initState]
    simp
  refine ⟨_, hw, rfl, ?_, rfl, ?_⟩
  · have hsrc : pathJoin d1 nm ≠ pathJoin d2 nm := fun h => hne (pathJoin_left_inj h)
    simp [List.nodup_cons, hsrc]
  · simp [List.dedup_cons_of_mem, List.mem_singleton]

/-- Witness for C10: `cat.JPG` at the scratch root and in a
subdirectory. -/
theorem C10_image_name_collision_witness :
    ∃ st', walk "converted_data.zip" initState
        [⟨"extracted_files", "cat.JPG", none, none, .decodeError⟩,
         ⟨"extracted_files/sub", "cat.JPG", none, none, .decodeError⟩] = .ok st' ∧
      st'.num_images = 2 ∧
      (st'.moves.map MoveEvent.src).Nodup ∧
      st'.moves.map MoveEvent.dest =
        [pathJoin (pathJoin "converted_data.zip" "train_images") "cat.JPG",
         pathJoin (pathJoin "converted_data.zip" "train_images") "cat.JPG"] ∧
      (st'.moves.map MoveEvent.dest).dedup.length = 1 :=
  C10_image_name_collision "converted_data.zip" "extracted_files" "extracted_files/sub"
    "cat.JPG" none none none none .decodeError .decodeError (by decide) (by decide)
